import Mathlib

/-!
Shallow embedding of the synthetic market-data generator of
`src/main.py` (crude_heatmap): a random-walk price series plus sampled
indicative-trade and confirmed-trade records.

Modelling conventions:
* Python floats are modelled as rationals (`ℚ`); all arithmetic is exact.
* The numpy global random source (`np.random`, seeded once with
  `np.random.seed(33)`) is modelled as an explicit state: an infinite
  stream of raw rational draws plus a position.  Each sampling call
  consumes exactly one raw draw, in the same order as the source code.
  A "seed" corresponds to an initial `RNG` state.
* `np.random.normal(loc, scale)` turns a raw draw `r` (the standard
  normal variate) into `loc + scale * r`.
* `np.random.uniform(lo, hi)` maps a raw draw into the half-open
  interval `[lo, hi)` via the fractional part.
* `np.random.randint(lo, hi)` maps a raw draw into `[lo, hi)`.
* `np.random.choice(xs, ...)` returns an element of `xs`; the optional
  probability vector only affects frequencies, not the support, so it is
  not part of the model.
* `datetime` values are modelled as integer day numbers;
  `datetime(2025, 2, 1)` is day `0` of the model epoch (only day
  differences are ever used by the program).
* Python `round(x, 2)` (round half to even on the second decimal) is
  modelled exactly on `ℚ` by `round2`.
-/

namespace Crude

/-- Explicit state of the pseudo-random source: a stream of raw draws
and the current position. -/
structure RNG where
  stream : ℕ → ℚ
  pos : ℕ

/-- Consume one raw draw. -/
def nextDraw (g : RNG) : ℚ × RNG :=
  (g.stream g.pos, ⟨g.stream, g.pos + 1⟩)

/-- `np.random.normal(loc, scale)`: one draw, scaled and shifted. -/
def normal (loc scale : ℚ) (g : RNG) : ℚ × RNG :=
  (loc + scale * (nextDraw g).1, (nextDraw g).2)

/-- `np.random.randint(lo, hi)`: one draw mapped into `[lo, hi)`. -/
def randint (lo hi : ℕ) (g : RNG) : ℕ × RNG :=
  (lo + (nextDraw g).1.num.natAbs % (hi - lo), (nextDraw g).2)

/-- `np.random.uniform(lo, hi)`: one draw mapped into `[lo, hi)`. -/
def uniform (lo hi : ℚ) (g : RNG) : ℚ × RNG :=
  (lo + (hi - lo) * Int.fract (nextDraw g).1, (nextDraw g).2)

/-- `np.random.choice(xs)` (with or without a probability vector):
one draw selecting an element of `xs`. -/
def choice {α : Type} [Inhabited α] (xs : List α) (g : RNG) : α × RNG :=
  (xs.getD ((nextDraw g).1.num.natAbs % xs.length) default, (nextDraw g).2)

/-- `np.random.normal(loc, scale, size := n)`: a list of `n` normal
samples, consuming `n` draws in order. -/
def normalList (loc scale : ℚ) : ℕ → RNG → List ℚ × RNG
  | 0, g => ([], g)
  | n + 1, g =>
      let x := normal loc scale g
      let rest := normalList loc scale n x.2
      (x.1 :: rest.1, rest.2)

/-- Running cumulative sums starting from accumulator `acc`
(element `i` is `acc` plus the sum of the first `i + 1` inputs). -/
def cumsumFrom (acc : ℚ) : List ℚ → List ℚ
  | [] => []
  | x :: xs => (acc + x) :: cumsumFrom (acc + x) xs

/-- `np.cumsum`. -/
def cumsum (xs : List ℚ) : List ℚ := cumsumFrom 0 xs

/-- Round half to even at integer precision (Python `round(x)` on an
exact rational). -/
def roundHalfEven (x : ℚ) : ℤ :=
  if Int.fract x = 1 / 2 then (if ⌊x⌋ % 2 = 0 then ⌊x⌋ else ⌊x⌋ + 1)
  else round x

/-- Python `round(x, 2)`: round half to even on the second decimal. -/
def round2 (x : ℚ) : ℚ := (roundHalfEven (x * 100) : ℚ) / 100

/-- `generate_random_walk` (src/main.py lines 11-30): draw `num_steps`
normal steps with standard deviation `volatility`, return
`start_value + np.cumsum(steps)` together with the advanced random
state. -/
def generate_random_walk (num_steps : ℕ) (start_value volatility : ℚ)
    (g : RNG) : List ℚ × RNG :=
  let steps := normalList 0 volatility num_steps g
  ((cumsum steps.1).map (fun x => start_value + x), steps.2)

/-! ### `generate_indics` (src/main.py lines 32-118) -/

/-- `start_date = datetime(2025, 2, 1)` (line 34), modelled as day 0 of
the epoch; only day differences are used by the program. -/
def start_date : ℤ := 0

/-- `num_days = 120` (line 35). -/
def num_days : ℕ := 120

/-- The counterparty list (lines 36-44; "Shell" is commented out in the
source). -/
def counterparties : List String :=
  ["BP", "Total", "Chevron", "ExxonMobel", "Vitol", "Trafigura"]

/-- One record of the `trades` list (dict literal at lines 75-86).
Field names follow the dict keys of the source. -/
structure IndicativeTrade where
  counterparty : String
  type : String
  volume : ℕ
  bl_date : ℤ
  price_differential : ℚ
  unique_id : ℕ
deriving DecidableEq, Inhabited

/-- One record of the `confirmed_trades` list (dict literal at lines
105-113). -/
structure ConfirmedTrade where
  bl_date : ℤ
  line_end_date : ℤ
  buy_price : ℚ
  sell_price : ℚ
  volume : ℕ
deriving DecidableEq, Inhabited

/-- The loop `for i in range(50)` of lines 51-86: `i` is the current
iteration index (stored as `unique_id`), the second argument the number
of remaining iterations.  Draw order per iteration matches the source:
randint (bl date), normal (noise), choice (counterparty), choice
(trade type), choice (volume). -/
def genIndicTrades (walk : List ℚ) : ℕ → ℕ → RNG → List IndicativeTrade × RNG
  | _, 0, g => ([], g)
  | i, n + 1, g =>
      let dd := randint 0 num_days g
      let bl_date : ℤ := start_date + (dd.1 : ℤ)
      let date_index : ℕ := (bl_date - start_date).toNat
      let base_price_diff := walk.getD date_index 0
      let noise := normal 0 0.15 dd.2
      let price_diff := round2 (base_price_diff + noise.1)
      let cp := choice counterparties noise.2
      let trade_type := choice ["Bid", "Offer"] cp.2
      let vol := choice [500, 950, 1000, 2000] trade_type.2
      let t : IndicativeTrade :=
        { counterparty := cp.1
          type := trade_type.1
          volume := vol.1
          bl_date := bl_date
          price_differential :=
            if trade_type.1 = "Offer" then price_diff else -price_diff
          unique_id := i }
      let rest := genIndicTrades walk (i + 1) n vol.2
      (t :: rest.1, rest.2)

/-- The loop `for i in range(num_confirmed)` of lines 92-113.  Draw
order per iteration matches the source: randint (bl date), uniform
(buy offset), uniform (sell offset), choice (volume). -/
def genConfirmedTrades (walk : List ℚ) : ℕ → RNG → List ConfirmedTrade × RNG
  | 0, g => ([], g)
  | n + 1, g =>
      let dd := randint 0 num_days g
      let bl_date : ℤ := start_date + (dd.1 : ℤ)
      let line_duration : ℤ := 5
      let date_index : ℕ := (bl_date - start_date).toNat
      let base_price := walk.getD date_index 0
      let u1 := uniform 0.2 0.5 dd.2
      let buy_price := round2 (base_price - u1.1)
      let u2 := uniform 0.2 0.5 u1.2
      let sell_price := round2 (base_price + u2.1)
      let vol := choice [500, 750, 1000] u2.2
      let t : ConfirmedTrade :=
        { bl_date := bl_date
          line_end_date := bl_date + line_duration
          buy_price := buy_price
          sell_price := sell_price
          volume := vol.1 }
      let rest := genConfirmedTrades walk n vol.2
      (t :: rest.1, rest.2)

/-- The tuple returned by `generate_indics` (line 118): the indicative
trades table, the confirmed trades table, the walk, and the start
date. -/
structure IndicsResult where
  trades : List IndicativeTrade
  confirmed_trades : List ConfirmedTrade
  random_walk_prices : List ℚ
  start_date : ℤ
deriving DecidableEq

/-- `generate_indics` with the local constant `num_confirmed`
(line 90, `15` in the source) exposed as a parameter, to state how the
output depends on it.  The pipeline order matches the source: the walk
consumes its draws first, then the 50 indicative trades, then the
confirmed trades. -/
def generate_indics_with (num_confirmed : ℕ) (g : RNG) : IndicsResult :=
  let w := generate_random_walk num_days 2.0 0.2 g
  let tr := genIndicTrades w.1 0 50 w.2
  let ct := genConfirmedTrades w.1 num_confirmed tr.2
  { trades := tr.1
    confirmed_trades := ct.1
    random_walk_prices := w.1
    start_date := start_date }

/-- `generate_indics` (lines 32-118), with `num_confirmed = 15`. -/
def generate_indics (g : RNG) : IndicsResult := generate_indics_with 15 g

/-- The unsigned rounded differential of a trade record: recovers the
pre-signing `price_diff` value of line 63 from the stored record. -/
def unsigned_diff (t : IndicativeTrade) : ℚ :=
  if t.type = "Offer" then t.price_differential else -t.price_differential

/-- The summary statistic `len(df)` printed as the `count` of
`df["price_differential"].describe()` (lines 241, 245). -/
def summary_count (r : IndicsResult) : ℕ := r.trades.length

/-! ### Output schema (spec section 6) -/

/-- Value of one field of an output record, tagged with its type. -/
inductive Val where
  | vStr (s : String)
  | vInt (n : ℤ)
  | vDate (d : ℤ)
  | vFloat (q : ℚ)
deriving DecidableEq

/-- The indicative-trade record as the key-value dict built at lines
75-86, keys in source order. -/
def toRecord (t : IndicativeTrade) : List (String × Val) :=
  [("counterparty", Val.vStr t.counterparty),
   ("type", Val.vStr t.type),
   ("volume", Val.vInt (t.volume : ℤ)),
   ("bl_date", Val.vDate t.bl_date),
   ("price_differential", Val.vFloat t.price_differential),
   ("unique_id", Val.vInt (t.unique_id : ℤ))]

/-- Modelled from the spec: the field names of the indicative-trade
output schema claimed in section 6 of spec.md
(`{counterparty, side, volume, bl_date, price_differential, id}`),
for comparison with the keys the code actually emits. -/
def specIndicativeTradeKeys : List String :=
  ["counterparty", "side", "volume", "bl_date", "price_differential", "id"]

/-! ### Concrete random states used for evaluation -/

/-- The all-zero random state: every raw draw is `0`. -/
def g0 : RNG := ⟨fun _ => 0, 0⟩

/-- A random state whose raw draw at position `i` is `i + 1`. -/
def gNat : RNG := ⟨fun i => (i : ℚ) + 1, 0⟩

/-- A random state driving the walk negative: the first walk step draws
`-100` (so the walk starts at `2 + 0.2 * (-100) = -18`), every later
draw is `0`. -/
def gNeg : RNG :=
  ⟨fun i => if i = 0 then -100 else 0, 0⟩

/-! ### Basic lemmas about the sampling primitives -/

lemma normalList_length (loc scale : ℚ) :
    ∀ (n : ℕ) (g : RNG), ((normalList loc scale n g).1).length = n
  | 0, _ => rfl
  | n + 1, g => by
      simp [normalList, normalList_length loc scale n]

lemma normalList_snd (loc scale : ℚ) :
    ∀ (n : ℕ) (g : RNG), (normalList loc scale n g).2 = ⟨g.stream, g.pos + n⟩
  | 0, _ => rfl
  | n + 1, g => by
      simp [normalList, normalList_snd loc scale n, normal, nextDraw,
        RNG.mk.injEq]
      omega

lemma cumsumFrom_length : ∀ (xs : List ℚ) (a : ℚ),
    (cumsumFrom a xs).length = xs.length
  | [], _ => rfl
  | x :: xs, a => by simp [cumsumFrom, cumsumFrom_length xs]

lemma cumsumFrom_getD : ∀ (xs : List ℚ) (a : ℚ) (i : ℕ), i < xs.length →
    (cumsumFrom a xs).getD i 0 = a + ((xs.take (i + 1)).sum)
  | [], _, i, h => absurd h (by simp)
  | x :: xs, a, 0, _ => by simp [cumsumFrom]
  | x :: xs, a, i + 1, h => by
      simp only [cumsumFrom, List.getD_cons_succ]
      rw [cumsumFrom_getD xs (a + x) i (by simpa using h)]
      simp [add_assoc]

lemma getD_map_const_add (c : ℚ) : ∀ (l : List ℚ) (i : ℕ), i < l.length →
    (l.map (fun x => c + x)).getD i 0 = c + l.getD i 0
  | [], i, h => absurd h (by simp)
  | x :: l, 0, _ => rfl
  | x :: l, i + 1, h => by
      simpa using getD_map_const_add c l i (by simpa using h)

lemma getD_mem {α : Type} (d : α) : ∀ (xs : List α) (i : ℕ), i < xs.length →
    xs.getD i d ∈ xs
  | [], i, h => absurd h (by simp)
  | x :: xs, 0, _ => by simp
  | x :: xs, i + 1, h => by
      simpa using List.mem_cons_of_mem x (getD_mem d xs i (by simpa using h))

lemma choice_mem {α : Type} [Inhabited α] (xs : List α) (h : xs ≠ [])
    (g : RNG) : (choice xs g).1 ∈ xs := by
  unfold choice
  exact getD_mem _ _ _ (Nat.mod_lt _ (List.length_pos.2 h))

lemma randint_lt (n : ℕ) (hn : 0 < n) (g : RNG) : (randint 0 n g).1 < n := by
  unfold randint
  simpa using Nat.mod_lt _ hn

lemma uniform_lower (lo hi : ℚ) (h : lo ≤ hi) (g : RNG) :
    lo ≤ (uniform lo hi g).1 := by
  unfold uniform
  have h0 : (0 : ℚ) ≤ (hi - lo) * Int.fract (nextDraw g).1 :=
    mul_nonneg (by linarith) (Int.fract_nonneg _)
  simp only
  linarith

/-! ### Lemmas about `generate_random_walk` -/

lemma generate_random_walk_length (n : ℕ) (s v : ℚ) (g : RNG) :
    ((generate_random_walk n s v g).1).length = n := by
  simp [generate_random_walk, cumsum, cumsumFrom_length, normalList_length]

lemma generate_random_walk_snd (n : ℕ) (s v : ℚ) (g : RNG) :
    (generate_random_walk n s v g).2 = ⟨g.stream, g.pos + n⟩ := by
  simp [generate_random_walk, normalList_snd]

lemma generate_random_walk_getD (n : ℕ) (s v : ℚ) (g : RNG) (i : ℕ)
    (hi : i < n) :
    (generate_random_walk n s v g).1.getD i 0 =
      s + (((normalList 0 v n g).1.take (i + 1)).sum) := by
  unfold generate_random_walk
  simp only
  rw [getD_map_const_add s _ i
    (by simp [cumsum, cumsumFrom_length, normalList_length, hi])]
  rw [show cumsum (normalList 0 v n g).1 = cumsumFrom 0 (normalList 0 v n g).1
      from rfl]
  rw [cumsumFrom_getD _ 0 i (by simp [normalList_length, hi])]
  rw [zero_add]

/-! ### Rounding lemmas -/

lemma abs_roundHalfEven_sub (x : ℚ) : |(roundHalfEven x : ℚ) - x| ≤ 1 / 2 := by
  unfold roundHalfEven
  split_ifs with h1 h2
  · have hx : (⌊x⌋ : ℚ) - x = -(1 / 2) := by
      rw [Int.fract] at h1
      linarith
    rw [hx, abs_neg, abs_of_nonneg (by norm_num : (0 : ℚ) ≤ 1 / 2)]
  · have hx : ((⌊x⌋ + 1 : ℤ) : ℚ) - x = 1 / 2 := by
      rw [Int.fract] at h1
      push_cast
      linarith
    rw [hx, abs_of_nonneg (by norm_num : (0 : ℚ) ≤ 1 / 2)]
  · calc |(round x : ℚ) - x| = |x - (round x : ℚ)| := abs_sub_comm _ _
      _ ≤ 1 / 2 := abs_sub_round x

lemma abs_round2_sub (x : ℚ) : |round2 x - x| ≤ 1 / 200 := by
  have h := abs_roundHalfEven_sub (x * 100)
  unfold round2
  have hdiv : (roundHalfEven (x * 100) : ℚ) / 100 - x =
      ((roundHalfEven (x * 100) : ℚ) - x * 100) / 100 := by ring
  rw [hdiv, abs_div]
  rw [show |(100 : ℚ)| = 100 by norm_num]
  rw [show (1 : ℚ) / 200 = (1 / 2) / 100 by norm_num]
  exact div_le_div_of_nonneg_right h (by norm_num)

lemma round2_eval (x : ℚ) (m : ℤ) (h : x * 100 = (m : ℚ)) :
    round2 x = (m : ℚ) / 100 := by
  unfold round2 roundHalfEven
  rw [h, Int.fract_intCast]
  norm_num

lemma round2_buy_lt_sell (b u1 u2 : ℚ) (h1 : 1 / 5 ≤ u1) (h2 : 1 / 5 ≤ u2) :
    round2 (b - u1) < round2 (b + u2) := by
  have a1 := abs_round2_sub (b - u1)
  have a2 := abs_round2_sub (b + u2)
  rw [abs_le] at a1 a2
  obtain ⟨a1l, a1r⟩ := a1
  obtain ⟨a2l, a2r⟩ := a2
  linarith

/-! ### Lemmas about the trade generators -/

lemma genIndicTrades_length (walk : List ℚ) :
    ∀ (n i : ℕ) (g : RNG), ((genIndicTrades walk i n g).1).length = n
  | 0, _, _ => rfl
  | n + 1, i, g => by
      simp [genIndicTrades, genIndicTrades_length walk n]

lemma genConfirmedTrades_length (walk : List ℚ) :
    ∀ (n : ℕ) (g : RNG), ((genConfirmedTrades walk n g).1).length = n
  | 0, _ => rfl
  | n + 1, g => by
      simp [genConfirmedTrades, genConfirmedTrades_length walk n]

lemma genIndicTrades_mem (walk : List ℚ) :
    ∀ (n i : ℕ) (g : RNG) (t : IndicativeTrade),
      t ∈ (genIndicTrades walk i n g).1 →
      (∃ d : ℕ, d < num_days ∧ t.bl_date = start_date + (d : ℤ)) ∧
      (t.type = "Bid" ∨ t.type = "Offer") ∧
      t.volume ∈ ([500, 950, 1000, 2000] : List ℕ) ∧
      t.counterparty ∈ counterparties
  | 0, i, g, t, ht => absurd ht (by simp [genIndicTrades])
  | n + 1, i, g, t, ht => by
      simp only [genIndicTrades, List.mem_cons] at ht
      rcases ht with h | h
      · subst h
        refine ⟨⟨(randint 0 num_days g).1,
          randint_lt num_days (by norm_num [num_days]) g, rfl⟩, ?_, ?_, ?_⟩
        · have hm := choice_mem ["Bid", "Offer"] (by simp)
            (choice counterparties
              (normal 0 0.15 (randint 0 num_days g).2).2).2
          simpa using hm
        · exact choice_mem [500, 950, 1000, 2000] (by simp) _
        · exact choice_mem counterparties (by simp [counterparties]) _
      · exact genIndicTrades_mem walk n (i + 1) _ t h

lemma genConfirmedTrades_mem (walk : List ℚ) :
    ∀ (n : ℕ) (g : RNG) (t : ConfirmedTrade),
      t ∈ (genConfirmedTrades walk n g).1 →
      (∃ d : ℕ, d < num_days ∧ t.bl_date = start_date + (d : ℤ)) ∧
      t.line_end_date = t.bl_date + 5 ∧
      t.buy_price < t.sell_price ∧
      t.volume ∈ ([500, 750, 1000] : List ℕ)
  | 0, g, t, ht => absurd ht (by simp [genConfirmedTrades])
  | n + 1, g, t, ht => by
      simp only [genConfirmedTrades, List.mem_cons] at ht
      rcases ht with h | h
      · subst h
        refine ⟨⟨(randint 0 num_days g).1,
          randint_lt num_days (by norm_num [num_days]) g, rfl⟩, rfl, ?_, ?_⟩
        · have h1 : (1 : ℚ) / 5 ≤ (uniform 0.2 0.5 (randint 0 num_days g).2).1 :=
            le_trans (by norm_num)
              (uniform_lower 0.2 0.5 (by norm_num) (randint 0 num_days g).2)
          have h2 : (1 : ℚ) / 5 ≤
              (uniform 0.2 0.5 (uniform 0.2 0.5 (randint 0 num_days g).2).2).1 :=
            le_trans (by norm_num)
              (uniform_lower 0.2 0.5 (by norm_num)
                (uniform 0.2 0.5 (randint 0 num_days g).2).2)
          exact round2_buy_lt_sell _ _ _ h1 h2
        · exact choice_mem [500, 750, 1000] (by simp) _
      · exact genConfirmedTrades_mem walk n _ t h

/-! ### One-step unfolding and concrete evaluations -/

lemma normalList_succ (loc scale : ℚ) (n : ℕ) (g : RNG) :
    normalList loc scale (n + 1) g =
      ((normal loc scale g).1 ::
        (normalList loc scale n (normal loc scale g).2).1,
       (normalList loc scale n (normal loc scale g).2).2) := rfl

lemma genIndicTrades_getD0 (walk : List ℚ) (i n : ℕ) (g : RNG)
    (d : IndicativeTrade) :
    (genIndicTrades walk i (n + 1) g).1.getD 0 d =
      { counterparty :=
          (choice counterparties (normal 0 0.15 (randint 0 num_days g).2).2).1
        type :=
          (choice ["Bid", "Offer"]
            (choice counterparties
              (normal 0 0.15 (randint 0 num_days g).2).2).2).1
        volume :=
          (choice [500, 950, 1000, 2000]
            (choice ["Bid", "Offer"]
              (choice counterparties
                (normal 0 0.15 (randint 0 num_days g).2).2).2).2).1
        bl_date := start_date + ((randint 0 num_days g).1 : ℤ)
        price_differential :=
          if (choice ["Bid", "Offer"]
                (choice counterparties
                  (normal 0 0.15 (randint 0 num_days g).2).2).2).1 = "Offer"
          then round2 (walk.getD
              (start_date + ((randint 0 num_days g).1 : ℤ) - start_date).toNat 0
              + (normal 0 0.15 (randint 0 num_days g).2).1)
          else -round2 (walk.getD
              (start_date + ((randint 0 num_days g).1 : ℤ) - start_date).toNat 0
              + (normal 0 0.15 (randint 0 num_days g).2).1)
        unique_id := i } := rfl

lemma walk_g0_getD0 :
    (generate_random_walk num_days 2.0 0.2 g0).1.getD 0 0 = 2 := by
  rw [generate_random_walk_getD num_days 2.0 0.2 g0 0 (by norm_num [num_days])]
  rw [show num_days = 119 + 1 from rfl, normalList_succ]
  simp [normal, nextDraw, g0]
  norm_num

lemma walk_g0_snd :
    (generate_random_walk num_days 2.0 0.2 g0).2 = ⟨g0.stream, 120⟩ := by
  rw [generate_random_walk_snd]
  simp [g0, num_days]

lemma g0_trade0 :
    (generate_indics g0).trades.getD 0 default =
      { counterparty := "BP", type := "Bid", volume := 500, bl_date := 0,
        price_differential := -2, unique_id := 0 } := by
  have h1 : (generate_indics g0).trades =
      (genIndicTrades (generate_random_walk num_days 2.0 0.2 g0).1 0 50
        (generate_random_walk num_days 2.0 0.2 g0).2).1 := rfl
  rw [h1, walk_g0_snd]
  rw [show (50 : ℕ) = 49 + 1 from rfl, genIndicTrades_getD0]
  have hr : randint 0 num_days ⟨g0.stream, 120⟩ = (0, ⟨g0.stream, 121⟩) := by
    simp [randint, nextDraw, g0]
  rw [hr]
  dsimp only
  have hn : normal 0 0.15 ⟨g0.stream, 121⟩ = (0, ⟨g0.stream, 122⟩) := by
    simp [normal, nextDraw, g0]
  rw [hn]
  dsimp only
  have hc : choice counterparties ⟨g0.stream, 122⟩ =
      ("BP", ⟨g0.stream, 123⟩) := by
    simp [choice, nextDraw, g0, counterparties]
  rw [hc]
  dsimp only
  have ht : choice ["Bid", "Offer"] ⟨g0.stream, 123⟩ =
      ("Bid", ⟨g0.stream, 124⟩) := by
    simp [choice, nextDraw, g0]
  rw [ht]
  dsimp only
  have hv : choice [500, 950, 1000, 2000] ⟨g0.stream, 124⟩ =
      (500, ⟨g0.stream, 125⟩) := by
    simp [choice, nextDraw, g0]
  rw [hv]
  dsimp only
  have hidx : ((start_date + ((0 : ℕ) : ℤ) - start_date).toNat : ℕ) = 0 := by
    simp [start_date]
  rw [hidx, walk_g0_getD0]
  have hround : round2 (2 : ℚ) = 2 := by
    rw [round2_eval 2 200 (by norm_num)]
    norm_num
  simp [hround, start_date]

lemma walk_gNeg_getD0 :
    (generate_random_walk num_days 2.0 0.2 gNeg).1.getD 0 0 = -18 := by
  rw [generate_random_walk_getD num_days 2.0 0.2 gNeg 0
    (by norm_num [num_days])]
  rw [show num_days = 119 + 1 from rfl, normalList_succ]
  simp [normal, nextDraw, gNeg]
  norm_num

lemma walk_gNeg_snd :
    (generate_random_walk num_days 2.0 0.2 gNeg).2 = ⟨gNeg.stream, 120⟩ := by
  rw [generate_random_walk_snd]
  simp [gNeg, num_days]

lemma gNeg_trade0 :
    (generate_indics gNeg).trades.getD 0 default =
      { counterparty := "BP", type := "Bid", volume := 500, bl_date := 0,
        price_differential := 18, unique_id := 0 } := by
  have h1 : (generate_indics gNeg).trades =
      (genIndicTrades (generate_random_walk num_days 2.0 0.2 gNeg).1 0 50
        (generate_random_walk num_days 2.0 0.2 gNeg).2).1 := rfl
  rw [h1, walk_gNeg_snd]
  rw [show (50 : ℕ) = 49 + 1 from rfl, genIndicTrades_getD0]
  have hr : randint 0 num_days ⟨gNeg.stream, 120⟩ =
      (0, ⟨gNeg.stream, 121⟩) := by
    simp [randint, nextDraw, gNeg]
  rw [hr]
  dsimp only
  have hn : normal 0 0.15 ⟨gNeg.stream, 121⟩ = (0, ⟨gNeg.stream, 122⟩) := by
    simp [normal, nextDraw, gNeg]
  rw [hn]
  dsimp only
  have hc : choice counterparties ⟨gNeg.stream, 122⟩ =
      ("BP", ⟨gNeg.stream, 123⟩) := by
    simp [choice, nextDraw, gNeg, counterparties]
  rw [hc]
  dsimp only
  have ht : choice ["Bid", "Offer"] ⟨gNeg.stream, 123⟩ =
      ("Bid", ⟨gNeg.stream, 124⟩) := by
    simp [choice, nextDraw, gNeg]
  rw [ht]
  dsimp only
  have hv : choice [500, 950, 1000, 2000] ⟨gNeg.stream, 124⟩ =
      (500, ⟨gNeg.stream, 125⟩) := by
    simp [choice, nextDraw, gNeg]
  rw [hv]
  dsimp only
  have hidx : ((start_date + ((0 : ℕ) : ℤ) - start_date).toNat : ℕ) = 0 := by
    simp [start_date]
  rw [hidx, walk_gNeg_getD0]
  have hround : round2 (-18 : ℚ) = -18 := by
    rw [round2_eval (-18) (-1800) (by norm_num)]
    norm_num
  simp [hround, start_date]

lemma generate_indics_trades_length (g : RNG) :
    (generate_indics g).trades.length = 50 :=
  genIndicTrades_length _ 50 0 _

lemma generate_indics_confirmed_length (g : RNG) :
    (generate_indics g).confirmed_trades.length = 15 :=
  genConfirmedTrades_length _ 15 _

lemma date_offset_bounds (b : ℤ) (d : ℕ) (hd : d < num_days)
    (hbl : b = start_date + (d : ℤ)) :
    0 ≤ b - start_date ∧ b - start_date < 120 ∧
      (b - start_date).toNat < 120 := by
  subst hbl
  have hd120 : d < 120 := by simpa [num_days] using hd
  simp only [start_date]
  refine ⟨by omega, by omega, by omega⟩

/-! ## Claims -/

/-- C1: for every `num_steps = n > 0`, `generate_random_walk` returns a
nonempty sequence of exactly `n` values equal to `start_value` plus the
cumulative sum of the `n` drawn normal steps; in particular index `0`
is `start_value` plus the first step (the bare `start_value` is never
emitted at index 0). -/
theorem claim_C1_random_walk_cumsum (n : ℕ) (s v : ℚ) (g : RNG)
    (hn : 0 < n) :
    ((generate_random_walk n s v g).1).length = n ∧
    0 < ((generate_random_walk n s v g).1).length ∧
    ∀ i, i < n → (generate_random_walk n s v g).1.getD i 0 =
      s + (((normalList 0 v n g).1.take (i + 1)).sum) := by
  refine ⟨generate_random_walk_length n s v g, ?_,
    fun i hi => generate_random_walk_getD n s v g i hi⟩
  rw [generate_random_walk_length n s v g]
  exact hn

/-- Witness for C1 at `n = 2`, `s = 2`, `v = 1` and the raw stream
`1, 2, 3, …`: the walk evaluates to `[3, 5]`, of length 2, and index 0
equals `2` plus the first step. -/
theorem claim_C1_random_walk_cumsum_witness :
    ((generate_random_walk 2 2 1 gNat).1).length = 2 ∧
    (generate_random_walk 2 2 1 gNat).1.getD 0 0 =
      2 + (((normalList 0 1 2 gNat).1.take 1).sum) ∧
    (generate_random_walk 2 2 1 gNat).1 = [3, 5] := by
  refine ⟨(claim_C1_random_walk_cumsum 2 2 1 gNat (by norm_num)).1,
    (claim_C1_random_walk_cumsum 2 2 1 gNat (by norm_num)).2.2 0 (by norm_num),
    ?_⟩
  simp [generate_random_walk, normalList, normal, nextDraw, cumsum,
    cumsumFrom, gNat]
  norm_num

/-- C2: the generation pipeline is a deterministic function of the
random source: a fixed seed (identical initial RNG state) and the same
call sequence give identical walks and identical full outputs. -/
theorem claim_C2_deterministic (n : ℕ) (s v : ℚ) (g1 g2 : RNG)
    (h : g1 = g2) :
    (generate_random_walk n s v g1).1 = (generate_random_walk n s v g2).1 ∧
    generate_indics g1 = generate_indics g2 := by
  subst h
  exact ⟨rfl, rfl⟩

/-- Witness for C2 at concrete arguments and the state `g0`. -/
theorem claim_C2_deterministic_witness :
    (generate_random_walk 120 2.0 0.2 g0).1 =
      (generate_random_walk 120 2.0 0.2 g0).1 ∧
    generate_indics g0 = generate_indics g0 :=
  claim_C2_deterministic 120 2.0 0.2 g0 g0 rfl

/-- C3 counterexample: at the state `gNeg` the first generated
indicative trade has stored `price_differential = 18 > 0` and side
`"Bid"`, refuting "positive stored differential implies side Offer". -/
theorem claim_C3_counterexample :
    (generate_indics gNeg).trades.getD 0 default ∈
      (generate_indics gNeg).trades ∧
    0 < ((generate_indics gNeg).trades.getD 0 default).price_differential ∧
    ((generate_indics gNeg).trades.getD 0 default).type = "Bid" := by
  refine ⟨getD_mem default _ 0
    (by rw [generate_indics_trades_length]; norm_num), ?_, ?_⟩
  · rw [gNeg_trade0]
    norm_num
  · rw [gNeg_trade0]

/-- C3 (amended): the stored differential is `+p` for side Offer and
`-p` for side Bid, where `p` (recovered by `unsigned_diff`) is the
rounded noisy base differential; whenever `p` is nonnegative, a
strictly positive stored differential implies side Offer and a strictly
negative one implies side Bid.  When `p < 0` both implications reverse
(see the counterexample). -/
theorem claim_C3_sign_side (g : RNG) :
    ∀ t ∈ (generate_indics g).trades, 0 ≤ unsigned_diff t →
      (0 < t.price_differential → t.type = "Offer") ∧
      (t.price_differential < 0 → t.type = "Bid") := by
  intro t ht hu
  have hmem := genIndicTrades_mem _ 50 0 _ t ht
  rcases hmem.2.1 with hb | ho
  · constructor
    · intro hpos
      exfalso
      rw [unsigned_diff, if_neg (by rw [hb]; decide)] at hu
      linarith
    · intro _
      exact hb
  · constructor
    · intro _
      exact ho
    · intro hneg
      exfalso
      rw [unsigned_diff, if_pos ho] at hu
      linarith

/-- Witness for C3 (amended) at `g0`: the first trade has nonnegative
unsigned differential `2`, stored differential `-2 < 0`, and indeed
side `"Bid"`. -/
theorem claim_C3_sign_side_witness :
    0 ≤ unsigned_diff ((generate_indics g0).trades.getD 0 default) ∧
    (((generate_indics g0).trades.getD 0 default).price_differential < 0 →
      ((generate_indics g0).trades.getD 0 default).type = "Bid") := by
  have hmem : (generate_indics g0).trades.getD 0 default ∈
      (generate_indics g0).trades :=
    getD_mem default _ 0 (by rw [generate_indics_trades_length]; norm_num)
  have hu : 0 ≤ unsigned_diff ((generate_indics g0).trades.getD 0 default) := by
    rw [g0_trade0]
    simp [unsigned_diff]
  exact ⟨hu, (claim_C3_sign_side g0 _ hmem hu).2⟩

/-- C4: every generated confirmed trade satisfies
`buy_price < sell_price` strictly: the buy side subtracts and the sell
side adds a uniform offset from `[0.2, 0.5)` to the same base walk
value, and the margin `0.4` survives rounding to 2 decimals (each
rounding moves a value by at most `0.005`). -/
theorem claim_C4_buy_lt_sell (g : RNG) :
    ∀ t ∈ (generate_indics g).confirmed_trades,
      t.buy_price < t.sell_price := by
  intro t ht
  exact (genConfirmedTrades_mem _ 15 _ t ht).2.2.1

/-- Witness for C4 at `g0`, on the first confirmed trade. -/
theorem claim_C4_buy_lt_sell_witness :
    ((generate_indics g0).confirmed_trades.getD 0 default).buy_price <
      ((generate_indics g0).confirmed_trades.getD 0 default).sell_price :=
  claim_C4_buy_lt_sell g0 _
    (getD_mem default _ 0
      (by rw [generate_indics_confirmed_length]; norm_num))

/-- C5 counterexample: at the state `g0` the generated indicative-trade
table has 50 rows (the source loop is `for i in range(50)`), not 100 as
the claim's example scenario asserts; the summary count is likewise
50. -/
theorem claim_C5_counterexample :
    (generate_indics g0).trades.length = 50 ∧
    ¬((generate_indics g0).trades.length = 100) ∧
    ¬(summary_count (generate_indics g0) = 100) := by
  refine ⟨generate_indics_trades_length g0, ?_, ?_⟩
  · rw [generate_indics_trades_length g0]
    norm_num
  · rw [show summary_count (generate_indics g0) =
      (generate_indics g0).trades.length from rfl,
      generate_indics_trades_length g0]
    norm_num

/-- C5 (amended): under the scenario hard-coded in the source
(seed state, horizon 120 days from 2025-02-01, start 2.0, volatility
0.2, the six counterparties), the generator deterministically produces
an indicative-trade table of exactly 50 rows, and the summary-statistics
count equals 50. -/
theorem claim_C5_fifty_rows (g : RNG) :
    (generate_indics g).trades.length = 50 ∧
    summary_count (generate_indics g) = 50 :=
  ⟨generate_indics_trades_length g, generate_indics_trades_length g⟩

/-- C6 counterexample: `generate_random_walk` performs no input
validation: at `num_steps = 0` it returns the empty sequence normally
(leaving the random state untouched) instead of failing with a
validation error before sampling. -/
theorem claim_C6_counterexample :
    (generate_random_walk 0 2.0 0.2 g0).1 = [] ∧
    (generate_random_walk 0 2.0 0.2 g0).2 = g0 :=
  ⟨rfl, rfl⟩

/-- C6 (amended): the code contains no configuration validation at all:
generation is total, `num_steps = 0` silently yields the empty walk,
and for every `num_steps` a complete result of exactly that length is
returned (never an error, never a partial table: the trade tables always
have exactly 50 and 15 rows). -/
theorem claim_C6_no_validation (s v : ℚ) (g : RNG) :
    (generate_random_walk 0 s v g).1 = [] ∧
    (∀ n : ℕ, ((generate_random_walk n s v g).1).length = n) ∧
    (generate_indics g).trades.length = 50 ∧
    (generate_indics g).confirmed_trades.length = 15 :=
  ⟨rfl, fun n => generate_random_walk_length n s v g,
    generate_indics_trades_length g, generate_indics_confirmed_length g⟩

/-- C7: for every generated trade (indicative and confirmed), the
bill-of-lading date offset satisfies
`0 ≤ bl_date - start_date < len(walk)`, so the walk lookup at the
recomputed `date_index` is always in bounds. -/
theorem claim_C7_date_in_range (g : RNG) :
    (∀ t ∈ (generate_indics g).trades,
       0 ≤ t.bl_date - (generate_indics g).start_date ∧
       t.bl_date - (generate_indics g).start_date <
         ((generate_indics g).random_walk_prices.length : ℤ) ∧
       (t.bl_date - (generate_indics g).start_date).toNat <
         (generate_indics g).random_walk_prices.length) ∧
    (∀ t ∈ (generate_indics g).confirmed_trades,
       0 ≤ t.bl_date - (generate_indics g).start_date ∧
       t.bl_date - (generate_indics g).start_date <
         ((generate_indics g).random_walk_prices.length : ℤ) ∧
       (t.bl_date - (generate_indics g).start_date).toNat <
         (generate_indics g).random_walk_prices.length) := by
  have hlen : (generate_indics g).random_walk_prices.length = 120 :=
    generate_random_walk_length _ _ _ _
  have hsd : (generate_indics g).start_date = start_date := rfl
  rw [hlen, hsd]
  constructor
  · intro t ht
    obtain ⟨⟨d, hd, hbl⟩, _⟩ := genIndicTrades_mem _ 50 0 _ t ht
    exact date_offset_bounds t.bl_date d hd hbl
  · intro t ht
    obtain ⟨⟨d, hd, hbl⟩, _⟩ := genConfirmedTrades_mem _ 15 _ t ht
    exact date_offset_bounds t.bl_date d hd hbl

/-- Witness for C7 at `g0`, on the first indicative trade. -/
theorem claim_C7_date_in_range_witness :
    0 ≤ ((generate_indics g0).trades.getD 0 default).bl_date -
        (generate_indics g0).start_date ∧
    ((generate_indics g0).trades.getD 0 default).bl_date -
        (generate_indics g0).start_date <
      ((generate_indics g0).random_walk_prices.length : ℤ) ∧
    (((generate_indics g0).trades.getD 0 default).bl_date -
        (generate_indics g0).start_date).toNat <
      (generate_indics g0).random_walk_prices.length :=
  (claim_C7_date_in_range g0).1 _
    (getD_mem default _ 0 (by rw [generate_indics_trades_length]; norm_num))

/-- C8: every generated confirmed trade satisfies
`line_end_date - bl_date = 5`: the line end is always the fixed 5-day
duration after the bill-of-lading date. -/
theorem claim_C8_line_end_duration (g : RNG) :
    ∀ t ∈ (generate_indics g).confirmed_trades,
      t.line_end_date - t.bl_date = 5 := by
  intro t ht
  have h := (genConfirmedTrades_mem _ 15 _ t ht).2.1
  omega

/-- Witness for C8 at `g0`, on the first confirmed trade. -/
theorem claim_C8_line_end_duration_witness :
    ((generate_indics g0).confirmed_trades.getD 0 default).line_end_date -
      ((generate_indics g0).confirmed_trades.getD 0 default).bl_date = 5 :=
  claim_C8_line_end_duration g0 _
    (getD_mem default _ 0
      (by rw [generate_indics_confirmed_length]; norm_num))

/-- C9 counterexample: the record emitted for the first indicative trade
at `g0` does not carry the spec's field names: its key list differs from
the spec schema, and neither `"side"` nor `"id"` occurs among its keys
(the code uses `"type"` and `"unique_id"`). -/
theorem claim_C9_counterexample :
    ((toRecord ((generate_indics g0).trades.getD 0 default)).map Prod.fst ≠
      specIndicativeTradeKeys) ∧
    "side" ∉
      (toRecord ((generate_indics g0).trades.getD 0 default)).map Prod.fst ∧
    "id" ∉
      (toRecord ((generate_indics g0).trades.getD 0 default)).map Prod.fst := by
  refine ⟨?_, ?_, ?_⟩ <;> simp [toRecord, specIndicativeTradeKeys]

/-- C9 (amended): every indicative-trade record has exactly the six
fields `counterparty` (string), `type` (one of the strings `"Bid"`,
`"Offer"`), `volume` (integer from the configured set), `bl_date`
(date), `price_differential` (float), `unique_id` (integer) — i.e. the
spec's `side` is emitted under the key `type` and its `id` under the key
`unique_id`. -/
theorem claim_C9_schema (g : RNG) :
    ∀ t ∈ (generate_indics g).trades,
      (toRecord t).map Prod.fst =
        ["counterparty", "type", "volume", "bl_date",
         "price_differential", "unique_id"] ∧
      (t.type = "Bid" ∨ t.type = "Offer") ∧
      t.volume ∈ ([500, 950, 1000, 2000] : List ℕ) ∧
      t.counterparty ∈ counterparties := by
  intro t ht
  have h := genIndicTrades_mem _ 50 0 _ t ht
  exact ⟨by simp [toRecord], h.2.1, h.2.2.1, h.2.2.2⟩

/-- Witness for C9 (amended) at `g0`, on the first indicative trade. -/
theorem claim_C9_schema_witness :
    (toRecord ((generate_indics g0).trades.getD 0 default)).map Prod.fst =
      ["counterparty", "type", "volume", "bl_date",
       "price_differential", "unique_id"] ∧
    (((generate_indics g0).trades.getD 0 default).type = "Bid" ∨
      ((generate_indics g0).trades.getD 0 default).type = "Offer") :=
  let h := claim_C9_schema g0 _
    (getD_mem default _ 0 (by rw [generate_indics_trades_length]; norm_num))
  ⟨h.1, h.2.1⟩

/-- C10: the indicative-trade table is independent of confirmed-trade
generation: all indicative draws are consumed before any confirmed
draw, so for any two confirmed-trade counts (including 0) the same
random state yields the identical indicative table; the source pipeline
is the instance with count 15. -/
theorem claim_C10_indics_independent :
    (∀ (c1 c2 : ℕ) (g : RNG),
      (generate_indics_with c1 g).trades =
        (generate_indics_with c2 g).trades) ∧
    (∀ g : RNG, generate_indics g = generate_indics_with 15 g) :=
  ⟨fun _ _ _ => rfl, fun _ => rfl⟩

end Crude
